import Mathlib

/-!
Verification development for the Toronto labour/business dynamics dashboard
(src/app.py).  The pipeline under study is the data-loading function
`load_data` (locate-or-fetch a CSV, derive a density column and a simulated
market-health column), the sidebar ward options (`available_wards`), the ward
filter (`filtered_data`) and the per-ward aggregation (`chart_data`).

Modelling conventions, matching the Python source:
  * a missing (NaN) cell is `Option.none`; a present string cell is `some s`;
  * pandas `read_csv` is embedded as `readCSV`, at the granularity of the
    single column the program uses (`Ward_Name`); a parse that raises inside
    pandas is `ParseResult.err`; a parsed table lacking a `Ward_Name` column
    is `ParseResult.noWard n` (the program then raises `KeyError` at
    `df[Ward_Name]` when `n > 0`, which no `try` block catches);
  * `np.random` is a deterministic pseudo-random stream modelled as explicit
    state passing: `np.random.seed 42` replaces the global state by a fixed
    value and `np.random.uniform 60 95 n` maps each successive state to a
    rational in the half-open unit interval, scaled into the interval
    `60 + 35 * u`; the numeric stream differs from NumPy's Mersenne twister
    but keeps its contract (fixed seed, values in the half-open range);
  * uncaught exceptions (process crash) are `Option.none` results of
    `load_data`; caught ones follow the source's `except` arm.
-/

/-- One row of the raw loaded table, at the granularity the program reads:
the `Ward_Name` cell, `none` when the cell is NaN. -/
structure Row where
  ward : Option String
deriving DecidableEq, Repr

/-- One row of the derived table: `Ward_Name`, `Ward_Density` (NaN for a
null ward, since `value_counts` drops NaN and `map` yields NaN on a missing
key) and `Market_Health_Score`. -/
structure FRow where
  ward : Option String
  density : Option Nat
  health : ℚ
deriving DecidableEq, Repr

/-- The result of `load_data`: the raw rows plus the two derived columns,
each `none` when the column was never attached (the `if not df.empty` guard
was false). -/
structure Frame where
  rows : List Row
  wardDensity : Option (List (Option Nat))
  marketHealth : Option (List ℚ)
deriving DecidableEq, Repr

/-! ### The np.random model -/

/-- Global state of the modelled `np.random` generator. -/
abbrev RngState := Nat

/-- Modulus of the modelled generator: states live below `2 ^ 31`. -/
def rngMod : Nat := 2 ^ 31

/-- One step of the modelled generator (a linear congruential step). -/
def rngNext (s : RngState) : RngState := (1103515245 * s + 12345) % rngMod

/-- Model of `np.random.seed`: the global state becomes a fixed value
determined by the seed argument alone. -/
def npSeed (n : Nat) : RngState := n % rngMod

/-- The unit-interval draw read off a state: a rational in `[0, 1)`
whenever the state is below `rngMod`. -/
def rngUnit (s : RngState) : ℚ := (s : ℚ) / (rngMod : ℚ)

/-- Model of `np.random.uniform low high (size := n)`: `n` successive draws,
each `low + (high - low) * u` for a unit draw `u`, threading the state. -/
def npUniform (low high : ℚ) : Nat → RngState → List ℚ × RngState
  | 0, s => ([], s)
  | n + 1, s =>
    ((low + (high - low) * rngUnit s) :: (npUniform low high n (rngNext s)).1,
      (npUniform low high n (rngNext s)).2)

/-! ### Feature derivation (src/app.py lines 79-84) -/

/-- Number of rows whose ward equals the given (non-null) ward value:
the entry of `value_counts().to_dict()` at key `w` when positive. -/
def wardCount (rows : List Row) (w : String) : Nat :=
  (rows.filter (fun r => r.ward = some w)).length

/-- Model of `df[Ward_Name].map(ward_counts)` at one cell: a NaN cell maps
to NaN, and a ward absent from the counts dictionary (count zero) also maps
to NaN. -/
def mapDensity (rows : List Row) : Option String → Option Nat
  | none => none
  | some w => if wardCount rows w = 0 then none else some (wardCount rows w)

/-- Lines 79-84 of src/app.py: when the frame is non-empty, attach the
`Ward_Density` column (frequency map of `Ward_Name`) and, after reseeding
the global generator with 42, the `Market_Health_Score` column of
`len(df)` uniform draws from `[60, 95)`.  An empty frame is returned
unchanged and the generator is not touched. -/
def featureDerive (rows : List Row) (g : RngState) : Frame × RngState :=
  if rows.isEmpty then (⟨rows, none, none⟩, g)
  else
    (⟨rows, some (rows.map (fun r => mapDensity rows r.ward)),
        some (npUniform 60 95 rows.length (npSeed 42)).1⟩,
      (npUniform 60 95 rows.length (npSeed 42)).2)

/-! ### CSV reading (the pandas boundary) -/

/-- Splits a character list at every occurrence of the separator. -/
def splitChar (sep : Char) : List Char → List (List Char)
  | [] => [[]]
  | c :: cs =>
    let r := splitChar sep cs
    if c = sep then [] :: r
    else
      match r with
      | [] => [[c]]
      | g :: gs => (c :: g) :: gs

/-- The strings pandas `read_csv` treats as missing values by default
(the members relevant to short ward cells). -/
def naValues : List String :=
  ["", "#N/A", "N/A", "NA", "NULL", "NaN", "None", "n/a", "nan", "null"]

/-- One parsed cell: `none` exactly when the text is a default NA value. -/
def parseCell (s : String) : Option String :=
  if naValues.contains s then none else some s

/-- Outcome of `pd.read_csv` on a text body, at ward-column granularity. -/
inductive ParseResult where
  | err
  | noWard (n : Nat)
  | table (rows : List Row)
deriving DecidableEq, Repr

/-- Model of `pd.read_csv` on decoded text: blank lines are skipped, an
input with no non-blank line raises (`err`), a record with more cells than
the header raises (`err`), a record with fewer cells is padded with NaN;
otherwise the `Ward_Name` column (when present) is read cell by cell with
the default NA sentinel set. -/
def readCSV (text : String) : ParseResult :=
  match (splitChar '\n' text.data).filter (fun l => l ≠ []) with
  | [] => .err
  | header :: records =>
    let cols := splitChar ',' header
    if records.any (fun l => cols.length < (splitChar ',' l).length) then .err
    else
      match cols.findIdx? (fun c => c == "Ward_Name".data) with
      | none => .noWard records.length
      | some i =>
          .table (records.map (fun l =>
            ⟨parseCell (String.mk ((splitChar ',' l).getD i []))⟩))

/-! ### The locate-or-fetch environment (src/app.py lines 57-75) -/

/-- The outcome of `requests.get` on the remote URL: `timeout` when the
call raises (timeout or connection error); otherwise a status code and a
body, whose decoded text is `none` when `content.decode` raises. -/
inductive NetResult where
  | timeout
  | ok (status : Nat) (body : Option String)
deriving DecidableEq, Repr

/-- The environment of one `load_data` call: the files of the working
directory (name and contents) and the remote endpoint's behaviour. -/
structure Env where
  files : List (String × String)
  net : NetResult
deriving DecidableEq, Repr

/-- The expected local file name (line 57 of src/app.py). -/
def local_path : String := "business_licences_toronto.csv"

/-- Contents of the named file, used after `os.path.exists` succeeded. -/
def lookupFile (files : List (String × String)) (p : String) : String :=
  ((files.find? (fun f => f.1 = p)).map Prod.snd).getD ""

/-- Serialization of one ward cell by `to_csv` (NaN becomes an empty cell). -/
def serializeCell : Option String → List Char
  | none => []
  | some w => w.data

/-- Model of `df.to_csv` at ward-column granularity. -/
def toCSV (rows : List Row) : String :=
  String.mk ("Ward_Name".data ++
    rows.foldr (fun r acc => '\n' :: (serializeCell r.ward ++ acc)) [])

/-- The empty `pd.DataFrame()` as a frame: no rows, no derived columns. -/
def emptyFrame : Frame := ⟨[], none, none⟩

/-- Lines 57-85 of src/app.py.  `os.path.exists` is an exact-name lookup in
the working directory; when it succeeds the local file is read outside any
`try` (a parse error or a later `KeyError` is an uncaught exception,
modelled by `none`).  Otherwise the remote body is fetched inside `try`:
a timeout, an undecodable body or a `read_csv` failure is caught and the
empty frame is returned; the status code is never inspected; on a
successful parse the table is written to the expected local path and then
feature derivation runs.  The generator state is threaded explicitly. -/
def load_data (env : Env) (g : RngState) :
    Option (Frame × List (String × String) × RngState) :=
  if (env.files.map Prod.fst).contains local_path then
    match readCSV (lookupFile env.files local_path) with
    | .err => none
    | .noWard 0 => some (emptyFrame, env.files, g)
    | .noWard (_ + 1) => none
    | .table rows =>
        some ((featureDerive rows g).1, env.files, (featureDerive rows g).2)
  else
    match env.net with
    | .timeout => some (emptyFrame, env.files, g)
    | .ok _ none => some (emptyFrame, env.files, g)
    | .ok _ (some text) =>
      match readCSV text with
      | .err => some (emptyFrame, env.files, g)
      | .noWard 0 => some (emptyFrame, (local_path, text) :: env.files, g)
      | .noWard (_ + 1) => none
      | .table rows =>
          some ((featureDerive rows g).1, (local_path, toCSV rows) :: env.files,
            (featureDerive rows g).2)

/-! ### Sidebar options, filter, aggregation (src/app.py lines 96-121) -/

/-- Model of `str(cell)` and `astype(str)` on one ward cell: NaN prints as
the literal text nan, a string cell is unchanged. -/
def strOfWard : Option String → String
  | none => "nan"
  | some w => w

/-- Lexicographic comparison of character lists by code point, the order
Python's `sorted` and pandas' group-key sort use on strings. -/
def lexLe : List Char → List Char → Bool
  | [], _ => true
  | _ :: _, [] => false
  | a :: as, b :: bs => if a = b then lexLe as bs else decide (a.toNat < b.toNat)

/-- Lexicographic comparison of strings by code point. -/
def strLe (a b : String) : Bool := lexLe a.data b.data

/-- The string order as a relation, for sorting. -/
def StrLe (a b : String) : Prop := strLe a b = true

instance : DecidableRel StrLe :=
  fun a b => inferInstanceAs (Decidable (strLe a b = true))

/-- Line 97 of src/app.py: the distinct non-null ward values, as strings,
sorted ascending. -/
def available_wards (rows : List FRow) : List String :=
  List.insertionSort StrLe ((rows.filterMap (fun r => r.ward)).dedup)

/-- Line 105 of src/app.py: keep the rows whose ward, coerced to a string,
is a member of the selection. -/
def filtered_data (rows : List FRow) (sel : List String) : List FRow :=
  rows.filter (fun r => sel.contains (strOfWard r.ward))

/-- First non-null value of a column, as pandas groupby `first` takes it. -/
def firstSome : List (Option Nat) → Option Nat
  | [] => none
  | some x :: _ => some x
  | none :: xs => firstSome xs

/-- The distinct non-null wards of the table, sorted ascending: the group
keys of `groupby(Ward_Name)` (which drops null keys and sorts). -/
def aggKeys (rows : List FRow) : List String :=
  List.insertionSort StrLe ((rows.filterMap (fun r => r.ward)).dedup)

/-- One row of the aggregate, for the group keyed by ward `w`: the mean of
`Market_Health_Score` over the group and the first (non-null)
`Ward_Density` of the group. -/
def chartRow (rows : List FRow) (w : String) : FRow :=
  let g := rows.filter (fun r => r.ward = some w)
  ⟨some w, firstSome (g.map (fun r => r.density)),
    (g.map (fun r => r.health)).sum / (g.length : ℚ)⟩

/-- Lines 118-121 of src/app.py: group by ward, take the mean of
`Market_Health_Score` and the first (non-null) `Ward_Density` per group,
and reset the index, yielding one row per distinct non-null ward in
ascending ward order. -/
def chart_data (rows : List FRow) : List FRow :=
  (aggKeys rows).map (chartRow rows)

/-- Rows of the derived table: the raw rows zipped with the two derived
columns. -/
def zipFRows : List Row → List (Option Nat) → List ℚ → List FRow
  | r :: rs, d :: ds, h :: hs => ⟨r.ward, d, h⟩ :: zipFRows rs ds hs
  | _, _, _ => []

/-- The derived table of a frame, as the downstream UI sees it. -/
def frameFRows (f : Frame) : List FRow :=
  match f.wardDensity, f.marketHealth with
  | some ds, some hs => zipFRows f.rows ds hs
  | _, _ => f.rows.map (fun r => ⟨r.ward, none, 0⟩)

/-! ### Generator range lemmas -/

theorem rngMod_pos : 0 < rngMod := by norm_num [rngMod]

theorem rngNext_lt (s : RngState) : rngNext s < rngMod :=
  Nat.mod_lt _ rngMod_pos

theorem npSeed_lt (n : Nat) : npSeed n < rngMod :=
  Nat.mod_lt _ rngMod_pos

theorem rngUnit_nonneg (s : RngState) : 0 ≤ rngUnit s := by
  unfold rngUnit
  positivity

theorem rngUnit_lt_one (s : RngState) (h : s < rngMod) : rngUnit s < 1 := by
  unfold rngUnit
  rw [div_lt_one (by exact_mod_cast rngMod_pos)]
  exact_mod_cast h

theorem npUniform_mem_range (n : Nat) :
    ∀ s : RngState, s < rngMod →
      ∀ x ∈ (npUniform 60 95 n s).1, 60 ≤ x ∧ x < 95 := by
  induction n with
  | zero =>
    intro s _ x hx
    simp [npUniform] at hx
  | succ n ih =>
    intro s hs x hx
    rcases List.mem_cons.mp hx with rfl | hx
    · have h0 := rngUnit_nonneg s
      have h1 := rngUnit_lt_one s hs
      constructor
      · nlinarith
      · nlinarith
    · exact ih (rngNext s) (rngNext_lt s) x hx

/-- Claim C5: for every non-empty loaded dataset, the derived health score
of every row lies in the half-open interval [60, 95). -/
theorem C5_health_in_range (rows : List Row) (g : RngState) (hs : List ℚ)
    (h : (featureDerive rows g).1.marketHealth = some hs) :
    ∀ x ∈ hs, 60 ≤ x ∧ x < 95 := by
  unfold featureDerive at h
  split at h
  · simp at h
  · simp only [Option.some.injEq] at h
    subst h
    exact npUniform_mem_range rows.length (npSeed 42) (npSeed_lt 42)

/-- Witness for C5: the one-row dataset receives a health column, and its
first entry lies in the interval. -/
theorem C5_health_in_range_witness :
    (featureDerive [Row.mk (some "A")] 0).1.marketHealth =
      some ((npUniform 60 95 1 (npSeed 42)).1) ∧
    (60 ≤ 60 + ((95 : ℚ) - 60) * rngUnit (npSeed 42) ∧
      60 + ((95 : ℚ) - 60) * rngUnit (npSeed 42) < 95) :=
  ⟨rfl, C5_health_in_range [Row.mk (some "A")] 0 _ rfl _ (List.mem_cons_self _ _)⟩

/-- Claim C6: the health-score column depends only on the row count (and the
fixed seed 42), not on the incoming generator state: two derivations on
inputs of identical length produce identical columns. -/
theorem C6_reproducible (rows₁ rows₂ : List Row) (g₁ g₂ : RngState)
    (h : rows₁.length = rows₂.length) :
    (featureDerive rows₁ g₁).1.marketHealth =
      (featureDerive rows₂ g₂).1.marketHealth := by
  cases rows₁ with
  | nil =>
    cases rows₂ with
    | nil => rfl
    | cons b bs => simp at h
  | cons a as =>
    cases rows₂ with
    | nil => simp at h
    | cons b bs =>
      simp only [featureDerive, List.isEmpty_cons, Bool.false_eq_true,
        if_false, h]

/-- Witness for C6: two distinct one-row datasets and two distinct incoming
generator states give the same health column. -/
theorem C6_reproducible_witness :
    ([Row.mk (some "A")].length = [Row.mk (some "B")].length) ∧
    (featureDerive [Row.mk (some "A")] 0).1.marketHealth =
      (featureDerive [Row.mk (some "B")] 123).1.marketHealth :=
  ⟨rfl, C6_reproducible [Row.mk (some "A")] [Row.mk (some "B")] 0 123 rfl⟩

/-- Claim C10: the empty table is returned unchanged by feature derivation
(no density or health column is attached, and the generator is not
reseeded); in particular a fetch failure propagates the empty frame with no
derived columns. -/
theorem C10_empty_passthrough (g : RngState) :
    featureDerive [] g = (⟨[], none, none⟩, g) ∧
    load_data ⟨[], NetResult.timeout⟩ g = some (emptyFrame, [], g) :=
  ⟨rfl, rfl⟩

/-- An environment whose local file holds a CSV with a missing ward cell
(the text NA in the second record), exercising the claim that missing wards
become the sentinel Unknown. -/
def c1Env : Env := ⟨[(local_path, "Ward_Name\nA\nNA")], NetResult.timeout⟩

/-- Counterexample to claim C1: loading a CSV whose second record has a
missing ward hands downstream a dataset whose second row still has a null
ward, not the sentinel Unknown. -/
theorem C1_counterexample :
    (load_data c1Env 0).map (fun r => r.1.rows) =
      some [Row.mk (some "A"), Row.mk none] ∧
    ¬ (∀ r ∈ [Row.mk (some "A"), Row.mk none], r.ward ≠ none) ∧
    (Row.mk none).ward ≠ some "Unknown" := by
  refine ⟨by decide, by decide, by decide⟩

/-- Claim C1 as amended: no sentinel substitution happens anywhere in the
pipeline; feature derivation hands the ward column to downstream components
exactly as parsed, null cells included. -/
theorem C1_amended_no_substitution (rows : List Row) (g : RngState) :
    (featureDerive rows g).1.rows = rows := by
  unfold featureDerive
  split <;> rfl

/-- A loaded dataset with one null-ward row, for the filter claims. -/
def c4Rows : List FRow := [⟨some "A", some 1, 61⟩, ⟨none, none, 61⟩]

/-- Counterexample to claim C4: on a dataset containing a null-ward row,
filtering by the full set of available wards drops that row, so the filter
is not the identity there. -/
theorem C4_counterexample :
    available_wards c4Rows = ["A"] ∧
    filtered_data c4Rows (available_wards c4Rows) =
      [⟨some "A", some 1, 61⟩] ∧
    filtered_data c4Rows (available_wards c4Rows) ≠ c4Rows := by
  refine ⟨by decide, by decide, by decide⟩

/-- Claim C4 as amended: the empty selection always yields zero rows, and
filtering by the full set of available wards is the identity on datasets
whose ward values are all non-null. -/
theorem C4_amended_filter (rows : List FRow) :
    filtered_data rows [] = [] ∧
    ((∀ r ∈ rows, r.ward ≠ none) →
      filtered_data rows (available_wards rows) = rows) := by
  constructor
  · simp [filtered_data]
  · intro hw
    rw [filtered_data, List.filter_eq_self]
    intro r hr
    obtain ⟨w, hwd⟩ := Option.ne_none_iff_exists'.mp (hw r hr)
    have hmem : w ∈ available_wards rows := by
      unfold available_wards
      rw [List.mem_insertionSort, List.mem_dedup]
      exact List.mem_filterMap.mpr ⟨r, hr, hwd⟩
    rw [hwd]
    simpa [strOfWard] using hmem

/-- Witness for C4 as amended: on an all-non-null dataset the empty
selection gives zero rows and the full selection gives the dataset back. -/
theorem C4_amended_filter_witness :
    filtered_data [(⟨some "A", some 1, 61⟩ : FRow)] [] = [] ∧
    (∀ r ∈ [(⟨some "A", some 1, 61⟩ : FRow)], r.ward ≠ none) ∧
    filtered_data [(⟨some "A", some 1, 61⟩ : FRow)]
        (available_wards [(⟨some "A", some 1, 61⟩ : FRow)]) =
      [(⟨some "A", some 1, 61⟩ : FRow)] :=
  ⟨(C4_amended_filter _).1, by decide, (C4_amended_filter _).2 (by decide)⟩

/-- Claim C9: the filter coerces each ward to its string form, so a null
ward is compared as the literal text nan; for any selection drawn from the
sidebar options of a parsed dataset (options exclude nulls, and a parsed
cell is never the string nan), every null-ward row is excluded. -/
theorem C9_null_ward_excluded :
    strOfWard none = "nan" ∧
    ∀ (rows : List FRow) (sel : List String),
      (∀ r ∈ rows, ∃ c, r.ward = parseCell c) →
      (∀ s ∈ sel, s ∈ available_wards rows) →
      ∀ r ∈ rows, r.ward = none → r ∉ filtered_data rows sel := by
  refine ⟨rfl, ?_⟩
  intro rows sel hparsed hsel r hr hnone hmem
  rw [filtered_data] at hmem
  have hpred := List.of_mem_filter hmem
  rw [hnone] at hpred
  have hnan : ("nan" : String) ∈ sel := by
    simpa [strOfWard] using hpred
  have havail := hsel _ hnan
  unfold available_wards at havail
  rw [List.mem_insertionSort, List.mem_dedup] at havail
  obtain ⟨r', hr', hw'⟩ := List.mem_filterMap.mp havail
  obtain ⟨c, hc⟩ := hparsed r' hr'
  rw [hw'] at hc
  unfold parseCell at hc
  split at hc
  · exact Option.noConfusion hc
  · rename_i hcond
    rw [Option.some.injEq] at hc
    subst hc
    exact hcond (by decide)

/-- A parsed dataset with one null-ward row, for the C9 witness. -/
def c9Rows : List FRow := [⟨some "A", some 1, 61⟩, ⟨none, none, 61⟩]

/-- Witness for C9: with the selection drawn from the sidebar options of a
parsed dataset, the null-ward row is not in the filtered result. -/
theorem C9_null_ward_excluded_witness :
    (∀ r ∈ c9Rows, ∃ c, r.ward = parseCell c) ∧
    (∀ s ∈ ["A"], s ∈ available_wards c9Rows) ∧
    (⟨none, none, 61⟩ : FRow) ∉ filtered_data c9Rows ["A"] := by
  have h1 : ∀ r ∈ c9Rows, ∃ c, r.ward = parseCell c := by
    intro r hr
    simp only [c9Rows, List.mem_cons, List.not_mem_nil, or_false] at hr
    rcases hr with rfl | rfl
    · exact ⟨"A", by decide⟩
    · exact ⟨"", by decide⟩
  exact ⟨h1, by decide,
    C9_null_ward_excluded.2 c9Rows ["A"] h1 (by decide) _ (by decide) rfl⟩

/-- Counterexample to claim C3: a non-200 response whose body parses as CSV
is not treated as a failure; the loader returns the parsed non-empty
dataset (and persists it), because the status code is never checked. -/
theorem C3_counterexample :
    (load_data ⟨[], NetResult.ok 404 (some "Ward_Name\nA")⟩ 0).map
        (fun r => r.1.rows) = some [Row.mk (some "A")] ∧
    (load_data ⟨[], NetResult.ok 404 (some "Ward_Name\nA")⟩ 0).map
        (fun r => r.2.1.map Prod.fst) = some [local_path] ∧
    some [Row.mk (some "A")] ≠ some ([] : List Row) := by
  refine ⟨by decide, by decide, by decide⟩

/-- Claim C3 as amended: on the remote path, a timeout or connection error,
an undecodable body, or a body on which the CSV parse raises each yields
the empty dataset returned normally (the exception is caught, the process
does not terminate); the HTTP status code is never consulted. -/
theorem C3_amended_failures (env : Env) (g : RngState)
    (hlocal : (env.files.map Prod.fst).contains local_path = false)
    (hfail : env.net = NetResult.timeout ∨
      (∃ s, env.net = NetResult.ok s none) ∨
      (∃ s t, env.net = NetResult.ok s (some t) ∧
        readCSV t = ParseResult.err)) :
    load_data env g = some (emptyFrame, env.files, g) := by
  unfold load_data
  rw [if_neg (by rw [hlocal]; exact Bool.false_ne_true)]
  rcases hfail with h | ⟨s, h⟩ | ⟨s, t, h, hp⟩
  · rw [h]
  · rw [h]
  · rw [h]
    simp only [hp]

/-- Witness for C3 as amended: a timing-out environment with no local file
yields the empty frame. -/
theorem C3_amended_failures_witness :
    ((([] : List (String × String)).map Prod.fst).contains local_path
      = false) ∧
    load_data ⟨[], NetResult.timeout⟩ 5 = some (emptyFrame, [], 5) :=
  ⟨by decide,
    C3_amended_failures ⟨[], NetResult.timeout⟩ 5 (by decide) (Or.inl rfl)⟩

/-- ASCII case folding on a code point (uppercase letters to lowercase). -/
def foldCase (n : Nat) : Nat := if 65 ≤ n ∧ n ≤ 90 then n + 32 else n

/-- Case-insensitive equality of two strings, by folded code points. -/
def ciEq (a b : String) : Bool :=
  decide ((a.data.map (fun c => foldCase c.toNat)) =
    (b.data.map (fun c => foldCase c.toNat)))

/-- Environment whose working directory holds the expected file under a
different letter case, while the remote endpoint serves different data. -/
def c8Env : Env :=
  ⟨[("BUSINESS_LICENCES_TORONTO.CSV", "Ward_Name\nB")],
    NetResult.ok 200 (some "Ward_Name\nA")⟩

/-- Counterexample to claim C8: a case-insensitive match for the expected
file exists locally (with ward B), yet the loader issues the remote fetch,
returns the remote data (ward A) and writes the expected path, because the
existence check is exact, not case-insensitive. -/
theorem C8_counterexample :
    ciEq "BUSINESS_LICENCES_TORONTO.CSV" local_path = true ∧
    readCSV (lookupFile c8Env.files "BUSINESS_LICENCES_TORONTO.CSV") =
      ParseResult.table [Row.mk (some "B")] ∧
    (load_data c8Env 0).map (fun r => r.1.rows) = some [Row.mk (some "A")] ∧
    (load_data c8Env 0).map (fun r => r.2.1.map Prod.fst) =
      some [local_path, "BUSINESS_LICENCES_TORONTO.CSV"] := by
  refine ⟨by decide, by decide, by decide, by decide⟩

/-- Claim C8 as amended: the local check is an exact-name lookup: when the
exact name is present the result does not depend on the network at all (no
remote GET is observable); when it is absent, the remote body is used and,
on a successful parse, the dataset is derived from it and written to the
expected local path. -/
theorem C8_amended_locator :
    (∀ (files : List (String × String)) (net₁ net₂ : NetResult)
        (g : RngState),
      (files.map Prod.fst).contains local_path = true →
      load_data ⟨files, net₁⟩ g = load_data ⟨files, net₂⟩ g) ∧
    (∀ (env : Env) (g : RngState) (s : Nat) (t : String) (rows : List Row),
      (env.files.map Prod.fst).contains local_path = false →
      env.net = NetResult.ok s (some t) →
      readCSV t = ParseResult.table rows →
      load_data env g =
        some ((featureDerive rows g).1,
          (local_path, toCSV rows) :: env.files,
          (featureDerive rows g).2)) := by
  constructor
  · intro files net₁ net₂ g h
    unfold load_data
    simp only [h, if_true]
  · intro env g s t rows hlocal hnet hp
    unfold load_data
    rw [if_neg (by rw [hlocal]; exact Bool.false_ne_true), hnet]
    simp only [hp]

/-- Witness for C8 as amended: with the exact name present the network is
irrelevant; with it absent a parsed remote body is derived and written. -/
theorem C8_amended_locator_witness :
    ((([(local_path, "Ward_Name\nB")] : List (String × String)).map
      Prod.fst).contains local_path = true) ∧
    load_data ⟨[(local_path, "Ward_Name\nB")], NetResult.timeout⟩ 0 =
      load_data ⟨[(local_path, "Ward_Name\nB")],
        NetResult.ok 200 (some "Ward_Name\nZ")⟩ 0 ∧
    ((([("x.csv", "y")] : List (String × String)).map Prod.fst).contains
      local_path = false) ∧
    readCSV "Ward_Name\nA" = ParseResult.table [Row.mk (some "A")] ∧
    load_data ⟨[("x.csv", "y")], NetResult.ok 200 (some "Ward_Name\nA")⟩ 0 =
      some ((featureDerive [Row.mk (some "A")] 0).1,
        (local_path, toCSV [Row.mk (some "A")]) :: [("x.csv", "y")],
        (featureDerive [Row.mk (some "A")] 0).2) :=
  ⟨by decide,
    C8_amended_locator.1 [(local_path, "Ward_Name\nB")] NetResult.timeout
      (NetResult.ok 200 (some "Ward_Name\nZ")) 0 (by decide),
    by decide, by decide,
    C8_amended_locator.2 ⟨[("x.csv", "y")], NetResult.ok 200
        (some "Ward_Name\nA")⟩ 0 200 "Ward_Name\nA" [Row.mk (some "A")]
      (by decide) rfl (by decide)⟩

/-! ### Density lemmas (claim C2) -/

theorem length_filter_eq_count (rows : List Row) (w : String) :
    (rows.filter (fun r => r.ward = some w)).length =
      (rows.filterMap (fun r => r.ward)).count w := by
  induction rows with
  | nil => rfl
  | cons r rest ih =>
    cases hw : r.ward with
    | none =>
      simp only [List.filter_cons, List.filterMap_cons, hw, ih]
      simp
      exact ih
    | some v =>
      by_cases hvw : v = w
      · subst hvw
        simp only [List.filter_cons, List.filterMap_cons, hw]
        simp [List.count_cons, ih]
      · simp only [List.filter_cons, List.filterMap_cons, hw]
        simp [List.count_cons, ih, hvw]

theorem length_filterMap_ward (rows : List Row)
    (hw : ∀ r ∈ rows, r.ward ≠ none) :
    (rows.filterMap (fun r => r.ward)).length = rows.length := by
  induction rows with
  | nil => rfl
  | cons r rest ih =>
    obtain ⟨v, hv⟩ :=
      Option.ne_none_iff_exists'.mp (hw r (List.mem_cons_self r rest))
    rw [List.filterMap_cons, hv]
    simp only [List.length_cons]
    rw [ih (fun x hx => hw x (List.mem_cons_of_mem r hx))]

/-- The 3-row scenario dataset of the spec, wards A, A, B. -/
def scenarioRows : List Row :=
  [Row.mk (some "A"), Row.mk (some "A"), Row.mk (some "B")]

/-- Counterexample to claim C2: on the spec's own scenario the density
column is [2, 2, 1], whose sum over all rows is 5, not the dataset's row
count 3; the per-bucket counts double-count rows row-wise. -/
theorem C2_counterexample :
    (featureDerive scenarioRows 0).1.wardDensity =
      some [some 2, some 2, some 1] ∧
    ([some 2, some 2, some 1].filterMap id).sum = 5 ∧
    scenarioRows.length = 3 ∧ (5 : Nat) ≠ 3 := by
  refine ⟨by decide, by decide, by decide, by decide⟩

/-- Claim C2 as amended: for a non-empty dataset with no null ward, every
row's derived density is the count of rows sharing its ward, and the counts
summed over the distinct wards (one per bucket, as the aggregate holds
them) total the row count; on the scenario the density column is [2, 2, 1]
and the aggregate has 2 rows. -/
theorem C2_amended_density :
    (∀ (rows : List Row) (g : RngState), rows ≠ [] →
      (∀ r ∈ rows, r.ward ≠ none) →
      (featureDerive rows g).1.wardDensity =
        some (rows.map (fun r =>
          some ((rows.filter (fun x => x.ward = r.ward)).length))) ∧
      ((rows.filterMap (fun r => r.ward)).dedup.map (wardCount rows)).sum =
        rows.length) ∧
    (featureDerive scenarioRows 0).1.wardDensity =
      some [some 2, some 2, some 1] ∧
    (chart_data (frameFRows (featureDerive scenarioRows 0).1)).length = 2 := by
  refine ⟨?main, by decide, by decide⟩
  intro rows g hne hw
  constructor
  · unfold featureDerive
    rw [if_neg (by simpa using hne)]
    simp only [Option.some.injEq]
    apply List.map_congr_left
    intro r hr
    obtain ⟨v, hv⟩ := Option.ne_none_iff_exists'.mp (hw r hr)
    rw [hv]
    have hcnt : wardCount rows v ≠ 0 := by
      unfold wardCount
      intro hzero
      rw [List.length_eq_zero] at hzero
      have hmem : r ∈ rows.filter (fun x => x.ward = some v) :=
        List.mem_filter.mpr ⟨hr, by simp [hv]⟩
      rw [hzero] at hmem
      exact List.not_mem_nil r hmem
    show (if wardCount rows v = 0 then none
      else some (wardCount rows v)) = _
    rw [if_neg hcnt]
    rfl
  · have hsum := List.sum_map_count_dedup_eq_length
      (rows.filterMap (fun r => r.ward))
    rw [← length_filterMap_ward rows hw]
    rw [← hsum]
    apply congrArg
    apply List.map_congr_left
    intro w _
    rw [wardCount, length_filter_eq_count]

/-- Witness for C2 as amended, at the spec's scenario dataset. -/
theorem C2_amended_density_witness :
    scenarioRows ≠ [] ∧ (∀ r ∈ scenarioRows, r.ward ≠ none) ∧
    (featureDerive scenarioRows 0).1.wardDensity =
      some (scenarioRows.map (fun r =>
        some ((scenarioRows.filter (fun x => x.ward = r.ward)).length))) ∧
    ((scenarioRows.filterMap (fun r => r.ward)).dedup.map
      (wardCount scenarioRows)).sum = scenarioRows.length :=
  ⟨by decide, by decide,
    (C2_amended_density.1 scenarioRows 0 (by decide) (by decide)).1,
    (C2_amended_density.1 scenarioRows 0 (by decide) (by decide)).2⟩

/-! ### Aggregation lemmas (claim C7) -/

theorem firstSome_single (x : Option Nat) : firstSome [x] = x := by
  cases x <;> rfl

theorem chartRow_cons_ne (r : FRow) (rest : List FRow) (w : String)
    (h : r.ward ≠ some w) :
    chartRow (r :: rest) w = chartRow rest w := by
  unfold chartRow
  rw [List.filter_cons_of_neg]
  simp [h]

theorem map_chartRow_eq_self :
    ∀ rows : List FRow,
      (∀ r ∈ rows, r.ward ≠ none) →
      (rows.filterMap (fun r => r.ward)).Nodup →
      (rows.filterMap (fun r => r.ward)).map (chartRow rows) = rows := by
  intro rows
  induction rows with
  | nil => intro _ _; rfl
  | cons r rest ih =>
    intro hw hnd
    obtain ⟨w₀, hw₀⟩ :=
      Option.ne_none_iff_exists'.mp (hw r (List.mem_cons_self r rest))
    rw [List.filterMap_cons_some hw₀] at hnd ⊢
    have hnotin : w₀ ∉ rest.filterMap (fun x => x.ward) :=
      (List.nodup_cons.mp hnd).1
    rw [List.map_cons]
    congr 1
    · unfold chartRow
      have hfil : (r :: rest).filter (fun x => x.ward = some w₀) = [r] := by
        rw [List.filter_cons_of_pos (by simp [hw₀])]
        have htail : rest.filter (fun x => decide (x.ward = some w₀)) = [] := by
          rw [List.filter_eq_nil_iff]
          intro x hx hxw
          exact hnotin (List.mem_filterMap.mpr ⟨x, hx, by simpa using hxw⟩)
        rw [htail]
      rw [hfil]
      obtain ⟨wv, dv, hv⟩ := r
      simp only at hw₀
      simp [firstSome_single, hw₀]
    · have hcongr : (rest.filterMap (fun x => x.ward)).map
          (chartRow (r :: rest)) =
          (rest.filterMap (fun x => x.ward)).map (chartRow rest) := by
        apply List.map_congr_left
        intro w hwmem
        apply chartRow_cons_ne
        rw [hw₀]
        intro heq
        rw [Option.some.injEq] at heq
        exact hnotin (heq ▸ hwmem)
      rw [hcongr]
      exact ih (fun x hx => hw x (List.mem_cons_of_mem r hx))
        (List.nodup_cons.mp hnd).2

/-- An unsorted table with exactly one row per (non-null) ward. -/
def c7Rows : List FRow :=
  [⟨some "B", some 1, 61⟩, ⟨some "A", some 1, 62⟩]

/-- Counterexample to claim C7: on a table with exactly one row per ward
but not sorted by ward, the aggregation re-sorts the rows, so it does not
return the same table. -/
theorem C7_counterexample :
    (∀ r ∈ c7Rows, r.ward ≠ none) ∧
    (c7Rows.filterMap (fun r => r.ward)).Nodup ∧
    chart_data c7Rows ≠ c7Rows := by
  refine ⟨by decide, by decide, by decide⟩

/-- Claim C7 as amended: the aggregation is the identity on tables with
exactly one row per ward, each bearing a ward value, listed in ascending
ward order (and hence idempotent as an operation: its output always has
this shape). -/
theorem C7_amended_idempotent (rows : List FRow)
    (hw : ∀ r ∈ rows, r.ward ≠ none)
    (hnd : (rows.filterMap (fun r => r.ward)).Nodup)
    (hs : List.Sorted StrLe (rows.filterMap (fun r => r.ward))) :
    chart_data rows = rows := by
  unfold chart_data aggKeys
  rw [List.dedup_eq_self.mpr hnd, List.Sorted.insertionSort_eq hs]
  exact map_chartRow_eq_self rows hw hnd

/-- A ward-sorted table with one row per ward, for the C7 witness. -/
def c7Sorted : List FRow :=
  [⟨some "A", some 1, 61⟩, ⟨some "B", some 2, 62⟩]

/-- Witness for C7 as amended: the aggregation returns the sorted
one-row-per-ward table unchanged. -/
theorem C7_amended_idempotent_witness :
    (∀ r ∈ c7Sorted, r.ward ≠ none) ∧
    (c7Sorted.filterMap (fun r => r.ward)).Nodup ∧
    List.Sorted StrLe (c7Sorted.filterMap (fun r => r.ward)) ∧
    chart_data c7Sorted = c7Sorted :=
  ⟨by decide, by decide, by decide,
    C7_amended_idempotent c7Sorted (by decide) (by decide) (by decide)⟩
